import Mathlib

/-!
Verification of the VPATH search engine of Make-plus (`src/vpath.c` and the
path-list format converters of `src/w32/pathstuff.c`).

Strings are modelled as `List Char` (the bytes of a NUL-terminated C string,
terminator excluded; a NUL byte that the C code smuggles into a counted
string is represented explicitly as the character with code 0).  The external
collaborators of the engine (the target database `lookup_file`, the directory
cache `dir_file_exists_p` and the `stat` probe) are modelled as oracle
functions collected in a `ScanEnv`.  Stores through the caller's
`FILE_TIMESTAMP *mtime_ptr` are modelled by returning, next to the result,
the list of values written through the pointer, in order.

The build configuration modelled is the plain Unix one (`WINDOWS32`, `VMS`,
`__MSDOS__`, `__EMX__` undefined); `HAVE_DOS_PATHS` appears only as the
`dos` flag of `strip1`, used to state the drive-prefix edge case of the
trailing-slash strip.  The Windows path-list converters of
`src/w32/pathstuff.c` are embedded separately (`convert_vpath_from_windows32`
and `convert_Path_to_windows32`).
-/

/-- Timestamps as `selective_vpath_search` distinguishes them: the sentinels
`UNKNOWN_MTIME`, `OLD_MTIME` (`-o` files) and `NEW_MTIME` (`-W` files), and
ordinary stat-derived timestamps. -/
inductive FtStamp where
  | unknownM : FtStamp
  | oldM : FtStamp
  | newM : FtStamp
  | concrete : Nat → FtStamp
deriving DecidableEq

/-- An entry of the target database (`struct file`), restricted to the two
fields `selective_vpath_search` reads: `is_target` and `last_mtime`. -/
structure FileEntry where
  is_target : Bool
  last_mtime : FtStamp
deriving DecidableEq

/-- The external collaborators consulted by the per-list scan:
`lookup_file` (target database), `dir_file_exists_p` (directory-content
cache) and the `stat` probe (`some mtime` on success, `none` on failure). -/
structure ScanEnv where
  lookupFile : List Char → Option FileEntry
  dirFileExistsP : List Char → List Char → Bool
  statFile : List Char → Option Nat

/-- `struct vpath`: one pattern-scoped search path. -/
structure Vpath where
  pattern : List Char
  percent : Option Nat
  patlen : Nat
  searchpath : List (List Char)
  maxlen : Nat
  target_goal : Bool
deriving DecidableEq

/-- The process-wide collection: the selective chain (in search order) and
the general `VPATH` list. -/
structure VpathState where
  vpaths : List Vpath
  general_vpath : Option Vpath
deriving DecidableEq

/-- Modelled from the spec: `find_wildcard_offset` — the byte offset of the
pattern's `%` wildcard, or `none` when the pattern has no wildcard.  (The
function `find_percent` lives outside the excerpted sources; §3 of the spec
describes a PatternKey as "a pattern string plus the byte offset of its
single `%` wildcard (or no wildcard)".) -/
def find_percent (pattern : List Char) : Option Nat :=
  pattern.findIdx? (fun c => c == '%')

/-- Modelled from the spec: `wildcard_match` — the external single-`%`
wildcard matcher (§6 of the spec).  With a wildcard at offset `k` the name
matches when it is at least as long as prefix plus suffix, starts with the
pattern's prefix and ends with its suffix; without a wildcard the match is
string equality. -/
def pattern_matches (pattern : List Char) (percent : Option Nat)
    (str : List Char) : Bool :=
  match percent with
  | none => pattern == str
  | some k =>
    let pfx := pattern.take k
    let sfx := pattern.drop (k+1)
    decide (pfx.length + sfx.length ≤ str.length)
      && (str.take pfx.length == pfx)
      && (str.drop (str.length - sfx.length) == sfx)

/-- `vpath_match` (vpath.c): literal wildcard match first; if the pattern
ends in `'.'` and the filename contains no `'.'`, retry with the trailing
dot erased from the pattern. -/
def vpath_match (v : Vpath) (filename : List Char) : Bool :=
  if pattern_matches v.pattern v.percent filename then true
  else if v.pattern.getLast? == some '.' && !(filename.contains '.') then
    pattern_matches v.pattern.dropLast (find_percent v.pattern.dropLast) filename
  else false

/-- A `struct vpath` exactly as `construct_vpath_list` would build it for a
pattern (used for concrete instances in statements). -/
def mkVpathPat (pat : List Char) (entries : List (List Char)) (tg : Bool) : Vpath :=
  { pattern := pat
    percent := find_percent pat
    patlen := pat.length
    searchpath := entries
    maxlen := (entries.map List.length).foldr max 0
    target_goal := tg }

/-- Index of the last `'/'` in the file name (`strrchr (file, '/')`). -/
def lastSlashIdx (file : List Char) : Option Nat :=
  match file.reverse.findIdx? (fun c => c == '/') with
  | some k => some (file.length - 1 - k)
  | none => none

/-- The split of `*FILE` into `name_dplen`, the directory prefix and the
name-within-directory, as computed at the top of `selective_vpath_search`:
`name_dplen = n != 0 ? n - file : 0; filename = name_dplen > 0 ? n + 1 : file`. -/
def fileSplit (file : List Char) : Nat × List Char × List Char :=
  match lastSlashIdx file with
  | some k => if 0 < k then (k, file.take k, file.drop (k+1)) else (0, [], file)
  | none => (0, [], file)

def fsDplen (file : List Char) : Nat := (fileSplit file).1

def fsPfx (file : List Char) : List Char := (fileSplit file).2.1

def fsName (file : List Char) : List Char := (fileSplit file).2.2

/-- `is_target` of the searched file: `f && f->is_target`. -/
def isTargetOf (env : ScanEnv) (file : List Char) : Bool :=
  match env.lookupFile file with
  | some f => f.is_target
  | none => false

/-- The scratch buffer up to `p`: the vpath entry, followed (when the file
had a directory prefix) by `'/'` and that prefix. -/
def candAcc (entry : List Char) (hasPfx : Bool) (pfx : List Char) : List Char :=
  entry ++ (if hasPfx then '/' :: pfx else [])

/-- Branch discriminator of the name assembly: `p != name && p[-1] != '/'`. -/
def branchA (acc : List Char) : Bool :=
  !acc.isEmpty && !(acc.getLast? == some '/')

/-- The candidate name as assembled in the scratch buffer: a slash is
inserted before the name-within-directory unless the buffer is empty or
already ends with a slash. -/
def candName (acc filename : List Char) : List Char :=
  if branchA acc then acc ++ '/' :: filename else acc ++ filename

/-- The byte string of length `(p + 1 - name) + flen` that
`selective_vpath_search` hands to `strcache_add_len` on success (and copies
into `tgt_name` for the target-goal fallback).  In the `branchA` case this
is exactly the candidate name; otherwise the unconditional `*p = '/'`
restore has clobbered the first byte of the filename, and the counted
length additionally takes in the NUL terminator. -/
def candRet (acc filename : List Char) : List Char :=
  if branchA acc then acc ++ '/' :: filename
  else if filename.isEmpty then acc ++ ['/']
  else acc ++ '/' :: (filename.drop 1 ++ ['\x00'])

/-- Outcome of one iteration of the directory loop of
`selective_vpath_search`: acceptance (with the values stored through
`mtime_ptr`, in order), the `continue` taken when the stat probe fails for a
non-target search, or falling through to the `else` arm (where the
target-goal fallback may be recorded). -/
inductive StepOut where
  | accept : List FtStamp → StepOut
  | rejectContinue : StepOut
  | reject : StepOut
deriving DecidableEq

def StepOut.isAccept : StepOut → Bool
  | .accept _ => true
  | _ => false

/-- One iteration of the directory loop of `selective_vpath_search` for the
candidate built from `acc` and `filename`:
1. `lookup_file (name)`: the hit counts as existing unless `*FILE` is a
   target and the entry is not (`exists = !is_target || f->is_target`);
   an `OLD_MTIME`/`NEW_MTIME` stamp is stored and `mtime_ptr` cleared.
2. otherwise `dir_file_exists_p (name-dir, filename)`, and a cache hit is
   re-validated with `stat`: on stat failure the entry is skipped unless the
   vpath or the file is target-flagged, in which case the candidate is still
   accepted (with `UNKNOWN_MTIME`). -/
def scanStep (env : ScanEnv) (isTarget isTargetPath mActive : Bool)
    (acc filename : List Char) : StepOut :=
  let name := candName acc filename
  let dbHit := env.lookupFile name
  let dbExists := match dbHit with
                  | some f => !isTarget || f.is_target
                  | none => false
  if dbExists then
    let w := match dbHit with
             | some f =>
               if mActive && (f.last_mtime == FtStamp.oldM || f.last_mtime == FtStamp.newM)
               then [f.last_mtime] else []
             | none => []
    StepOut.accept (w ++ if mActive && w.isEmpty then [FtStamp.unknownM] else [])
  else if env.dirFileExistsP acc filename then
    match env.statFile name with
    | some t => StepOut.accept (if mActive then [FtStamp.concrete t] else [])
    | none =>
      if !isTargetPath && !isTarget then StepOut.rejectContinue
      else StepOut.accept (if mActive then [FtStamp.unknownM] else [])
  else StepOut.reject

/-- The directory loop of `selective_vpath_search`, with the loop index `i`
and the recorded target-goal fallback `tgt` made explicit.  When the loop
exhausts with a recorded fallback, the fallback is returned with directory
index 0 and `UNKNOWN_MTIME` stored (when `mtime_ptr` is non-null). -/
def scanLoop (env : ScanEnv) (isT isTP m hasPfx : Bool) (pfx fname : List Char) :
    List (List Char) → Nat → Option (List Char) →
    Option (List Char × Nat) × List FtStamp
  | [], _, tgt =>
    match tgt with
    | some t => (some (t, 0), if m then [FtStamp.unknownM] else [])
    | none => (none, [])
  | entry :: rest, i, tgt =>
    let acc := candAcc entry hasPfx pfx
    match scanStep env isT isTP m acc fname with
    | StepOut.accept w => (some (candRet acc fname, i), w)
    | StepOut.rejectContinue => scanLoop env isT isTP m hasPfx pfx fname rest (i+1) tgt
    | StepOut.reject =>
      scanLoop env isT isTP m hasPfx pfx fname rest (i+1)
        (if isTP && tgt.isNone then some (candRet acc fname) else tgt)

/-- `selective_vpath_search` (vpath.c): scan one vpath's directories for
`file`.  Returns the interned result with the matching directory index, and
the list of values stored through `mtime_ptr` (`m` says whether the caller
passed a non-null `mtime_ptr`). -/
def selective_vpath_search (env : ScanEnv) (path : Vpath) (file : List Char)
    (m : Bool) : Option (List Char × Nat) × List FtStamp :=
  scanLoop env (isTargetOf env file) path.target_goal m
    (decide (0 < fsDplen file)) (fsPfx file) (fsName file) path.searchpath 0 none

/-- A successful resolution as `vpath_search` reports it through its result
and out-parameters: the path, `*target_path`, `*vpath_index`, `*path_index`. -/
structure Hit where
  name : List Char
  was_target_goal : Bool
  vpath_index : Nat
  path_index : Nat
deriving DecidableEq

/-- First pass of `vpath_search` over the selective chain: every matching
vpath is searched with its `target_goal` flag temporarily overridden to 0
(and restored afterwards, which is why a hit reports the true flag). -/
def searchPhase1 (env : ScanEnv) (file : List Char) (m : Bool) :
    List Vpath → Nat → Option Hit × List FtStamp
  | [], _ => (none, [])
  | v :: rest, i =>
    if vpath_match v file then
      let r := selective_vpath_search env { v with target_goal := false } file m
      match r.1 with
      | some nmpi => (some ⟨nmpi.1, v.target_goal, i, nmpi.2⟩, r.2)
      | none =>
        let rr := searchPhase1 env file m rest (i+1)
        (rr.1, r.2 ++ rr.2)
    else searchPhase1 env file m rest (i+1)

/-- Second pass of `vpath_search`: only the vpaths whose true `target_goal`
flag is set are rescanned, now with that flag in force. -/
def searchPhase2 (env : ScanEnv) (file : List Char) (m : Bool) :
    List Vpath → Nat → Option Hit × List FtStamp
  | [], _ => (none, [])
  | v :: rest, i =>
    if v.target_goal && vpath_match v file then
      let r := selective_vpath_search env v file m
      match r.1 with
      | some nmpi => (some ⟨nmpi.1, v.target_goal, i, nmpi.2⟩, r.2)
      | none =>
        let rr := searchPhase2 env file m rest (i+1)
        (rr.1, r.2 ++ rr.2)
    else searchPhase2 env file m rest (i+1)

/-- The early-out of `vpath_search`: the file name starts at the root, or
there are neither selective vpaths nor a general one. -/
def vpathGuard (st : VpathState) (file : List Char) : Bool :=
  file.head? == some '/' || (st.vpaths.isEmpty && st.general_vpath.isNone)

/-- `vpath_search` (vpath.c): the three-phase search.  Phase 1 scans the
selective chain with `target_goal` ignored; phase 2 rescans the chain
restricted to target-goal vpaths; finally the general `VPATH` list is
tried.  `*vpath_index`/`*path_index` are reset to 0 between phases, so a hit
reports the index within its phase. -/
def vpath_search (st : VpathState) (env : ScanEnv) (file : List Char)
    (m : Bool) : Option Hit × List FtStamp :=
  if vpathGuard st file then (none, [])
  else
    let r1 := searchPhase1 env file m st.vpaths 0
    match r1.1 with
    | some h => (some h, r1.2)
    | none =>
      let r2 := searchPhase2 env file m st.vpaths 0
      match r2.1 with
      | some h => (some h, r1.2 ++ r2.2)
      | none =>
        match st.general_vpath with
        | some g =>
          let rg := selective_vpath_search env g file m
          match rg.1 with
          | some nmpi => (some ⟨nmpi.1, g.target_goal, 0, nmpi.2⟩, r1.2 ++ r2.2 ++ rg.2)
          | none => (none, r1.2 ++ r2.2 ++ rg.2)
        | none => (none, r1.2 ++ r2.2)

/-- Per-vpath attempt of phase 1, for stating the search order: at chain
position `i`, a matching vpath is searched with `target_goal` forced off. -/
def attempt1 (env : ScanEnv) (file : List Char) (m : Bool)
    (iv : Nat × Vpath) : Option Hit :=
  if vpath_match iv.2 file then
    match (selective_vpath_search env { iv.2 with target_goal := false } file m).1 with
    | some nmpi => some ⟨nmpi.1, iv.2.target_goal, iv.1, nmpi.2⟩
    | none => none
  else none

/-- Per-vpath attempt of phase 2: only target-goal vpaths, real flag. -/
def attempt2 (env : ScanEnv) (file : List Char) (m : Bool)
    (iv : Nat × Vpath) : Option Hit :=
  if iv.2.target_goal && vpath_match iv.2 file then
    match (selective_vpath_search env iv.2 file m).1 with
    | some nmpi => some ⟨nmpi.1, iv.2.target_goal, iv.1, nmpi.2⟩
    | none => none
  else none

/-- The general-list attempt (no pattern check; index slots reset to 0). -/
def attemptGeneral (env : ScanEnv) (file : List Char) (m : Bool)
    (g : Vpath) : Option Hit :=
  match (selective_vpath_search env g file m).1 with
  | some nmpi => some ⟨nmpi.1, g.target_goal, 0, nmpi.2⟩
  | none => none

/-- `ISBLANK`: space or tab. -/
def ISBLANK (c : Char) : Bool := c == ' ' || c == '\t'

/-- A path-list separator as `STOP_SET (c, MAP_BLANK|MAP_PATHSEP)` sees it in
the Unix build: a blank or the path separator `':'`. -/
def isSepOrBlank (c : Char) : Bool := ISBLANK c || c == ':'

/-- The inner scan of `construct_vpath_list`: consume one directory entry.
The scan stops at end of string, at the path separator (even when escaped),
or at an unescaped blank; a backslash toggles the escape state.  The
consumed characters (escapes included — the code never removes them) and
the rest of the input are returned. -/
def scanDirEntry : List Char → Bool → List Char × List Char
  | [], _ => ([], [])
  | c :: rest, esc =>
    if c == ':' then ([], c :: rest)
    else if ISBLANK c && !esc then ([], c :: rest)
    else
      let esc' := if c == '\\' then !esc else false
      let (e, r) := scanDirEntry rest esc'
      (c :: e, r)

/-- The trailing-slash strip of `construct_vpath_list`.  Unix build
(`dos = false`): strip one `'/'` unless the entry is a single character
(`len > 1` guard, which keeps the root `"/"` intact).  DOS-paths build
(`dos = true`): `(len > 3 || (len > 1 && v[1] != ':')) && (p[-1] == '/' ||
p[-1] == '\\')`, which additionally keeps a bare drive root like `"d:/"`. -/
def strip1 (dos : Bool) (e : List Char) : List Char :=
  if dos then
    if (decide (3 < e.length)
          || (decide (1 < e.length) && !(e[1]? == some ':')))
        && (e.getLast? == some '/' || e.getLast? == some '\\')
    then e.dropLast else e
  else
    if decide (1 < e.length) && e.getLast? == some '/' then e.dropLast else e

/-- Canonicalization of one parsed entry: strip a trailing slash, then keep
the entry only when `len > 1 || *v != '.'` (drop `"."`). -/
def canonEntry (e : List Char) : Option (List Char) :=
  let e' := strip1 false e
  if decide (1 < e'.length) || !(e'.headD '\x00' == '.') then some e' else none

/-- The entry loop of `construct_vpath_list`, fuelled by the input length
(each iteration consumes at least one character). -/
def parseLoopF : Nat → List Char → List (List Char)
  | 0, _ => []
  | _, [] => []
  | fuel+1, p =>
    let er := scanDirEntry p false
    let rest := er.2.dropWhile isSepOrBlank
    match canonEntry er.1 with
    | some e => e :: parseLoopF fuel rest
    | none => parseLoopF fuel rest

/-- The directory entries `construct_vpath_list` extracts from a directory
string: initial separators and blanks skipped, then the entry loop. -/
def parseEntries (dirpath : List Char) : List (List Char) :=
  let p := dirpath.dropWhile isSepOrBlank
  parseLoopF p.length p

/-- The percent-position part of the removal condition of
`construct_vpath_list`: both patterns lack a `%`, or the offsets agree. -/
def percentEq : Option Nat → Option Nat → Bool
  | none, none => true
  | some a, some b => a == b
  | _, _ => false

/-- The removal condition: no pattern given, or same percent position and
equal pattern string; and in every case the same "target" category. -/
def delMatch (pattern : Option (List Char)) (percent : Option Nat)
    (tg : Bool) (v : Vpath) : Bool :=
  (match pattern with
   | none => true
   | some pat => percentEq percent v.percent && v.pattern == pat)
  && v.target_goal == tg

/-- `construct_vpath_list` (vpath.c) acting on the selective chain.  With no
directory string: delete every chain element matching the pattern in the
same category (no error when nothing matches).  With a directory string:
parse it; when at least one entry survives, push a new `struct vpath` onto
the front of the chain, else do nothing.  (The source is never called with a
directory string but no pattern; that case leaves the chain unchanged.) -/
def construct_vpath_list (st : List Vpath) (pattern : Option (List Char))
    (dirpath : Option (List Char)) (tg : Bool) : List Vpath :=
  let percent := pattern.bind find_percent
  match dirpath with
  | none => st.filter (fun v => !(delMatch pattern percent tg v))
  | some d =>
    match pattern with
    | none => st
    | some pat =>
      let entries := parseEntries d
      if entries.isEmpty then st else mkVpathPat pat entries tg :: st

/-- C-string indexing: the byte at offset `i`, with the NUL terminator at
and beyond the end of the (NUL-free) content. -/
def cAt (s : List Char) (i : Nat) : Char := (s[i]?).getD '\x00'

/-- `strneq (a, b, n)`: the first `n` bytes agree (comparison through the
NUL terminators, as `strncmp == 0` behaves on NUL-free contents). -/
def strneq (a b : List Char) (n : Nat) : Bool :=
  (List.range n).all (fun i => cAt a i == cAt b i)

/-- `gpath_search` (vpath.c): an entry of the GPATH list matches when its
first `len` bytes equal those of `file` and its byte at `len` is NUL; the
whole search is guarded by `len <= gpaths->maxlen` and by the list's
existence. -/
def gpath_search (gpaths : Option Vpath) (file : List Char) (len : Nat) : Bool :=
  match gpaths with
  | some g =>
    if decide (len ≤ g.maxlen) then
      g.searchpath.any (fun gp => strneq gp file len && (cAt gp len == '\x00'))
    else false
  | none => false

/-- The delimiter scan in the first pass of `convert_vpath_from_windows32`:
fold over the input tracking the in-quotes state; record whether the
delimiter occurs outside double quotes. -/
def delimFound (delim : Char) (src : List Char) : Bool :=
  (src.foldl
    (fun (st : Bool × Bool) c =>
      if c == '"' then (!st.1, st.2)
      else if c == delim && !st.1 then (st.1, true)
      else st)
    (false, false)).2

/-- The conversion loop of `convert_vpath_from_windows32`, one character at
a time.  The state is the in-quotes flag, the escape flag, and a flag
standing for the `while (ISBLANK (*(src + 1))) src++;` that skips blanks
right after a delimiter.  The output is accumulated in reverse in `acc` so
that the blank-trimming before a delimiter (and at the end) is a
`dropWhile`. -/
def fromLoop (delim : Char) (df : Bool) :
    List Char → Bool → Bool → Bool → List Char → List Char
  | [], _, _, _, acc => (acc.dropWhile ISBLANK).reverse
  | c :: src, instring, esc, skip, acc =>
    if skip && ISBLANK c then fromLoop delim df src instring esc true acc
    else if c == '"' then fromLoop delim df src (!instring) false false acc
    else if ISBLANK c && !esc && (instring || df) then
      fromLoop delim df src instring false false (' ' :: '\\' :: acc)
    else if c == delim && !instring then
      fromLoop delim df src instring false true (' ' :: acc.dropWhile ISBLANK)
    else
      fromLoop delim df src instring
        (if !instring && c == '\\' then !esc else false) false (c :: acc)

/-- `convert_vpath_from_windows32` (pathstuff.c): skip leading blanks, fail
on an empty string, else run the conversion with the delimiter-outside-
quotes flag of the first pass. -/
def convert_vpath_from_windows32 (Path : List Char) (delim : Char) :
    Option (List Char) :=
  let p := Path.dropWhile ISBLANK
  if p.isEmpty then none
  else some (fromLoop delim (delimFound delim p) p false false false [])

/-- The double-quote wrapping `convert_Path_to_windows32` performs (via
`mark`/`memmove`) on a segment that contained escaped blanks. -/
def wrapIf (enquote : Bool) (seg : List Char) : List Char :=
  if enquote then '"' :: seg ++ ['"'] else seg

/-- The conversion loop of `convert_Path_to_windows32`, one character at a
time.  `pending` holds a backslash seen outside quotes whose treatment
depends on the next character (the C code reads `*(src + 1)`); `seg` is the
segment since the last delimiter (the C `mark`); `out` the finished output
before it. -/
def toLoop (delim : Char) :
    List Char → Bool → Bool → Bool → List Char → List Char → List Char
  | [], pending, enquote, _instring, out, seg =>
    out ++ wrapIf enquote (if pending then seg ++ ['\\'] else seg)
  | c :: src, pending, enquote, instring, out, seg =>
    if pending && ISBLANK c then
      toLoop delim src false true instring out (seg ++ [' '])
    else
      let seg0 := if pending then seg ++ ['\\'] else seg
      if !instring && c == '\\' then
        toLoop delim src true enquote instring out seg0
      else if !instring && ISBLANK c then
        toLoop delim src false false instring
          (out ++ wrapIf enquote seg0 ++ [delim]) []
      else
        toLoop delim src false enquote
          (if c == '"' then !instring else instring) out (seg0 ++ [c])

/-- `convert_Path_to_windows32` (pathstuff.c): skip leading blanks, fail on
an empty string, else run the conversion. -/
def convert_Path_to_windows32 (Path : List Char) (delim : Char) :
    Option (List Char) :=
  let p := Path.dropWhile ISBLANK
  if p.isEmpty then none
  else some (toLoop delim p false false false [] [])

/-- Modelled from the spec: the directory strings denoted by a host-native
delimited path list (the four accepted input shapes in the documentation
comment of `convert_vpath_from_windows32`).  Double quotes group; outside
quotes the delimiter separates entries — and when the delimiter never
occurs outside quotes the string is already canonical and unescaped blanks
separate entries; a backslash escaping a blank denotes that blank
literally; empty entries denote nothing. -/
def parseNativeLoop (delim : Char) (df : Bool) :
    List Char → Bool → Bool → List Char → List (List Char)
  | [], pending, _instring, cur =>
    let cur' := if pending then '\\' :: cur else cur
    if cur'.isEmpty then [] else [cur'.reverse]
  | c :: src, pending, instring, cur =>
    if pending && ISBLANK c then
      parseNativeLoop delim df src false instring (c :: cur)
    else
      let cur0 := if pending then '\\' :: cur else cur
      if c == '"' then parseNativeLoop delim df src false (!instring) cur0
      else if !instring && c == '\\' then
        parseNativeLoop delim df src true instring cur0
      else if !instring && (if df then c == delim else ISBLANK c) then
        (if cur0.isEmpty then [] else [cur0.reverse])
          ++ parseNativeLoop delim df src false instring []
      else parseNativeLoop delim df src false instring (c :: cur0)

/-- Modelled from the spec: the entry list a host-native path list denotes
(see `parseNativeLoop`). -/
def parseNative (delim : Char) (s : List Char) : List (List Char) :=
  let p := s.dropWhile ISBLANK
  parseNativeLoop delim (delimFound delim p) p false false []

/-- Does the entry contain a space? -/
def hasSpace (e : List Char) : Bool := e.any (fun c => c == ' ')

/-- A character allowed inside a well-formed native directory entry: no
double quote, no backslash, no delimiter `';'`, no tab. -/
def goodChar (c : Char) : Bool :=
  !(c == '"') && !(c == '\\') && !(c == ';') && !(c == '\t')

/-- A well-formed native directory entry: non-empty, made of allowed
characters, with no leading or trailing blank. -/
def goodEntry (e : List Char) : Bool :=
  !e.isEmpty && e.all goodChar
    && !(e.headD ' ' == ' ') && !(e.getLastD ' ' == ' ')

/-- Render one entry in host-native (Windows) style: wrap it in double
quotes when it embeds spaces. -/
def renderEntry (e : List Char) : List Char := wrapIf (hasSpace e) e

/-- Render an entry list as a host-native `';'`-delimited path list. -/
def renderNative : List (List Char) → List Char
  | [] => []
  | [e] => renderEntry e
  | e :: es => renderEntry e ++ ';' :: renderNative es

/-- One entry in the engine's canonical form: spaces backslash-escaped. -/
def escEntry (e : List Char) : List Char :=
  e.foldr (fun c r => (if c == ' ' then ['\\', ' '] else [c]) ++ r) []

/-- An entry list in the engine's canonical form: space-delimited, embedded
spaces escaped. -/
def canonRender : List (List Char) → List Char
  | [] => []
  | [e] => escEntry e
  | e :: es => escEntry e ++ ' ' :: canonRender es

/-! Concrete instances used to witness the theorems below. -/

/-- Oracle for the order scenario: nothing is a target, `foo.o` exists (in
cache and on disk, mtime 5) only under `/lib`. -/
def envOrd : ScanEnv :=
  { lookupFile := fun _ => none
    dirFileExistsP := fun d f => d == ("/lib".toList) && f == ("foo.o".toList)
    statFile := fun s => if s == ("/lib/foo.o".toList) then some 5 else none }

/-- A target-goal vpath for `%.o` with the single directory `/build`. -/
def vpBuild : Vpath := mkVpathPat ("%.o".toList) [("/build".toList)] true

/-- A plain vpath for `%.o` with the single directory `/lib`. -/
def vpLib : Vpath := mkVpathPat ("%.o".toList) [("/lib".toList)] false

/-- Oracle for the target-goal fallback scenario: `foo.o` is a declared
target, no candidate is known anywhere. -/
def envTgt : ScanEnv :=
  { lookupFile := fun s =>
      if s == ("foo.o".toList) then some ⟨true, FtStamp.unknownM⟩ else none
    dirFileExistsP := fun _ _ => false
    statFile := fun _ => none }

/-- The target-goal vpath of the fallback scenario: pattern `%.o`,
directories `/build` then `/alt`. -/
def vpTgt : Vpath :=
  mkVpathPat ("%.o".toList) [("/build".toList), ("/alt".toList)] true

/-- Oracle for the asymmetric-rule scenario: `foo.o` is a declared target
and the database holds a non-target entry at the candidate `/vp/foo.o`. -/
def envAsym : ScanEnv :=
  { lookupFile := fun s =>
      if s == ("foo.o".toList) then some ⟨true, FtStamp.unknownM⟩
      else if s == ("/vp/foo.o".toList) then some ⟨false, FtStamp.unknownM⟩
      else none
    dirFileExistsP := fun _ _ => false
    statFile := fun _ => none }

/-- The exclusion list of the membership scenario: entries of 10, 9 and 11
bytes sharing the prefix `/src/foo.` . -/
def gpEx : Vpath :=
  mkVpathPat ("%".toList)
    [("/src/foo.c".toList), ("/src/foo.".toList), ("/src/foo.cc".toList)] false

/-! ## Claim C5: resolver guard -/

/-- C5: for every absolute filename (starting with the root separator; the
drive-letter form belongs to the `HAVE_DOS_PATHS` build, which is not the
one modelled), and for every filename when the collection has neither
selective lists nor a general list, `vpath_search` returns "not found"
immediately — without any `mtime_ptr` store — and this is the ordinary
"not found" result, not an error. -/
theorem c5_resolver_guard (st : VpathState) (env : ScanEnv) (file : List Char)
    (m : Bool)
    (h : file.head? = some '/' ∨ (st.vpaths = [] ∧ st.general_vpath = none)) :
    vpath_search st env file m = (none, []) := by
  have hg : vpathGuard st file = true := by
    unfold vpathGuard
    rcases h with h | ⟨h1, h2⟩
    · simp [h]
    · simp [h1, h2]
  unfold vpath_search
  simp [hg]

/-- Witness for C5 at the absolute filename `/usr/foo.o`. -/
theorem c5_resolver_guard_witness :
    (("/usr/foo.o".toList).head? = some '/')
    ∧ vpath_search ⟨[vpLib], some vpLib⟩ envOrd ("/usr/foo.o".toList) true
        = (none, []) :=
  ⟨rfl, c5_resolver_guard ⟨[vpLib], some vpLib⟩ envOrd ("/usr/foo.o".toList) true
          (Or.inl rfl)⟩

/-! ## Claim C4: wildcard dot fallback -/

/-- C4 (counterexample): the claim's instance fails — the pattern `"%.o."`
does not match the dotless filename `"foo"`, not even via the trailing-dot
fallback, because the stripped pattern `"%.o"` still requires a `'.'` in
the name. -/
theorem c4_counterexample :
    vpath_match (mkVpathPat ("%.o.".toList) [] false) ("foo".toList) = false := by
  decide

/-- C4 (amended): whenever the pattern ends in a literal `'.'`, the literal
wildcard match fails and the candidate filename contains no `'.'` at all,
`vpath_match` retries with the trailing dot removed and returns that
verdict; the pattern `"%."` does match a dotless filename via this fallback
although the literal wildcard match alone rejects it. -/
theorem c4_dot_fallback :
    (∀ (v : Vpath) (filename : List Char),
      v.pattern.getLast? = some '.' →
      filename.contains '.' = false →
      pattern_matches v.pattern v.percent filename = false →
      vpath_match v filename
        = pattern_matches v.pattern.dropLast
            (find_percent v.pattern.dropLast) filename)
    ∧ vpath_match (mkVpathPat ("%.".toList) [] false) ("foo".toList) = true
    ∧ pattern_matches ("%.".toList) (find_percent ("%.".toList)) ("foo".toList)
        = false := by
  refine ⟨?_, by decide, by decide⟩
  intro v filename h1 h2 h3
  unfold vpath_match
  simp only [h3, Bool.false_eq_true, if_false]
  have hc : (v.pattern.getLast? == some '.' && !(filename.contains '.')) = true := by
    rw [h1, h2]
    decide
  simp only [hc, if_true]

/-- Witness for C4's amended rule at pattern `"%."` and filename `"foo"`. -/
theorem c4_dot_fallback_witness :
    ((mkVpathPat ("%.".toList) [] false).pattern.getLast? = some '.')
    ∧ vpath_match (mkVpathPat ("%.".toList) [] false) ("foo".toList)
        = pattern_matches ((mkVpathPat ("%.".toList) [] false).pattern.dropLast)
            (find_percent ((mkVpathPat ("%.".toList) [] false).pattern.dropLast))
            ("foo".toList) :=
  ⟨by decide,
   c4_dot_fallback.1 (mkVpathPat ("%.".toList) [] false) ("foo".toList)
     (by decide) (by decide) (by decide)⟩

/-! ## Claim C7: directory-entry canonicalization -/

/-- C7: the builder strips exactly one trailing slash from a parsed entry
unless the entry is the filesystem root (or, in the DOS-paths variant of
the strip, a bare drive prefix); the strip never empties an entry — in
particular a bare `"/"` (and `"C:/"` under DOS paths) survives intact;
entries equal to `"."` (after the strip) are dropped; and when zero entries
survive the directive creates no list and leaves the chain unchanged. -/
theorem c7_entry_canonicalization :
    (∀ e : List Char, e.getLast? = some '/' → 1 < e.length →
        strip1 false e = e.dropLast)
    ∧ (∀ e : List Char, e ≠ [] → strip1 false e ≠ [])
    ∧ strip1 false ['/'] = ['/']
    ∧ strip1 true ("C:/".toList) = "C:/".toList
    ∧ (∀ e : List Char, e.length ≤ 3 → e[1]? = some ':' → strip1 true e = e)
    ∧ (∀ e : List Char, e ≠ [] → (canonEntry e = none ↔ strip1 false e = ['.']))
    ∧ (∀ (st : List Vpath) (pat d : List Char) (tg : Bool),
        parseEntries d = [] → construct_vpath_list st (some pat) (some d) tg = st) := by
  refine ⟨?_, ?_, by decide, by decide, ?_, ?_, ?_⟩
  · intro e h1 h2
    unfold strip1
    simp [h1, h2]
  · intro e he
    unfold strip1
    by_cases h : decide (1 < e.length) && e.getLast? == some '/'
    · simp only [Bool.if_false_left, h, if_true]
      have : 1 < e.length := by
        have := (Bool.and_eq_true _ _).mp h
        exact of_decide_eq_true this.1
      intro hc
      have := congrArg List.length hc
      simp [List.length_dropLast] at this
      omega
    · simp [h, he]
  · intro e h1 h2
    unfold strip1
    have h3 : decide (3 < e.length) = false := by
      simp only [decide_eq_false_iff_not]
      omega
    simp [h2, h3]
  · intro e he
    unfold canonEntry
    have hne : strip1 false e ≠ [] := by
      unfold strip1
      by_cases h : decide (1 < e.length) && e.getLast? == some '/'
      · simp only [h, if_true]
        have : 1 < e.length := by
          have := (Bool.and_eq_true _ _).mp h
          exact of_decide_eq_true this.1
        intro hc
        have := congrArg List.length hc
        simp [List.length_dropLast] at this
        omega
      · simp [h, he]
    constructor
    · intro h
      by_cases h1 : 1 < (strip1 false e).length
      · simp [h1] at h
      · match hs : strip1 false e with
        | [] => exact absurd hs hne
        | c :: cs =>
          rw [hs] at h h1
          match cs with
          | [] =>
            simp only [List.headD_cons] at h
            by_cases hc : c = '.'
            · rw [hc]
            · simp [hc] at h
          | c2 :: cs2 => simp at h1
    · intro h
      simp [canonEntry, h]
  · intro st pat d tg h
    unfold construct_vpath_list
    simp [h]

/-- Witness for C7 at the entry `"ab/"`. -/
theorem c7_entry_canonicalization_witness :
    (("ab/".toList).getLast? = some '/')
    ∧ strip1 false ("ab/".toList) = ("ab/".toList).dropLast :=
  ⟨by decide, c7_entry_canonicalization.1 ("ab/".toList) (by decide) (by decide)⟩

/-! ## Claim C6: stacking and delete-all -/

/-- Reduction of the percent computation at a present pattern. -/
theorem bind_find_percent (pat : List Char) :
    (some pat).bind find_percent = find_percent pat := rfl

/-- Unfolding of `delMatch` at a present pattern. -/
theorem delMatch_some (pat : List Char) (pe : Option Nat) (tg : Bool) (v : Vpath) :
    delMatch (some pat) pe tg v
      = ((percentEq pe v.percent && v.pattern == pat) && v.target_goal == tg) := rfl

/-- Unfolding of `delMatch` at an absent pattern. -/
theorem delMatch_none (pe : Option Nat) (tg : Bool) (v : Vpath) :
    delMatch none pe tg v = (true && v.target_goal == tg) := rfl

/-- `delMatch` with a pattern forces the pattern string, the percent
position and the category. -/
theorem delMatch_some_eq_true {pat : List Char} {pe : Option Nat} {tg : Bool}
    {v : Vpath} (h : delMatch (some pat) pe tg v = true) :
    v.pattern = pat ∧ percentEq pe v.percent = true ∧ v.target_goal = tg := by
  rw [delMatch_some, Bool.and_eq_true, Bool.and_eq_true] at h
  obtain ⟨⟨h3, h4⟩, h2⟩ := h
  exact ⟨eq_of_beq h4, h3, eq_of_beq h2⟩

/-- C6: a directive with a non-empty directory string applied twice stacks
two equal, independently constructed lists at the head of the chain (no
deduplication); a delete directive (absent directory string) with a pattern
removes every chain element with that pattern string, percent position and
category — all stacked copies at once; with no pattern it removes every
element of the category; and when nothing matches the chain is returned
unchanged (no error). -/
theorem c6_stacking_and_delete (st : List Vpath) (pat d : List Char) (tg : Bool)
    (h : parseEntries d ≠ []) :
    construct_vpath_list (construct_vpath_list st (some pat) (some d) tg)
        (some pat) (some d) tg
      = mkVpathPat pat (parseEntries d) tg
          :: mkVpathPat pat (parseEntries d) tg :: st
    ∧ construct_vpath_list st (some pat) none tg
        = st.filter (fun v =>
            !(v.pattern == pat && percentEq (find_percent pat) v.percent
                && v.target_goal == tg))
    ∧ construct_vpath_list st none none tg
        = st.filter (fun v => !(v.target_goal == tg))
    ∧ ((∀ v ∈ st, ¬(v.pattern = pat ∧ percentEq (find_percent pat) v.percent = true
            ∧ v.target_goal = tg)) →
        construct_vpath_list st (some pat) none tg = st) := by
  have hne : (parseEntries d).isEmpty = false := by
    cases hp : parseEntries d with
    | nil => exact absurd hp h
    | cons a l => rfl
  refine ⟨?_, ?_, ?_, ?_⟩
  · simp only [construct_vpath_list, hne, Bool.false_eq_true, if_false]
  · unfold construct_vpath_list
    apply List.filter_congr
    intro v _
    rw [delMatch_some, bind_find_percent]
    have hb : ∀ a b c : Bool, (!(a && b && c)) = (!(b && a && c)) := by decide
    exact hb _ _ _
  · unfold construct_vpath_list
    apply List.filter_congr
    intro v _
    rw [delMatch_none, Bool.true_and]
  · intro h4
    unfold construct_vpath_list
    apply List.filter_eq_self.mpr
    intro v hv
    cases hd : delMatch (some pat) ((some pat).bind find_percent) tg v with
    | true =>
      obtain ⟨h1, h2, h3⟩ := delMatch_some_eq_true hd
      exact absurd ⟨h1, h2, h3⟩ (h4 v hv)
    | false => simp [hd]

/-- Witness for C6: declaring `vpath %.c src:lib` twice stacks two lists. -/
theorem c6_stacking_and_delete_witness :
    parseEntries ("src:lib".toList) ≠ []
    ∧ construct_vpath_list
        (construct_vpath_list [] (some ("%.c".toList)) (some ("src:lib".toList)) false)
        (some ("%.c".toList)) (some ("src:lib".toList)) false
      = [mkVpathPat ("%.c".toList) (parseEntries ("src:lib".toList)) false,
         mkVpathPat ("%.c".toList) (parseEntries ("src:lib".toList)) false] :=
  ⟨by decide,
   (c6_stacking_and_delete [] ("%.c".toList) ("src:lib".toList) false (by decide)).1⟩

/-! ## Claim C8: exclusion membership -/

/-- C-string byte at an index inside the content. -/
theorem cAt_lt {s : List Char} {i : Nat} (h : i < s.length) : cAt s i = s[i] := by
  unfold cAt
  rw [List.getElem?_eq_getElem h]
  rfl

/-- C-string byte at or beyond the terminator. -/
theorem cAt_ge {s : List Char} {i : Nat} (h : s.length ≤ i) : cAt s i = '\x00' := by
  unfold cAt
  rw [List.getElem?_eq_none h]
  rfl

/-- The per-entry test of `gpath_search` — first `len` bytes equal and NUL
at `len` — holds exactly for an entry that is the `len`-byte prefix of the
(NUL-free, long-enough) searched name and is itself exactly that long. -/
theorem strneq_exact {e file : List Char} {len : Nat}
    (hf : ¬ '\x00' ∈ file) (he : ¬ '\x00' ∈ e) (hlen : len ≤ file.length) :
    ((strneq e file len && (cAt e len == '\x00')) = true)
      ↔ (e.length = len ∧ e = file.take len) := by
  constructor
  · intro h
    rw [Bool.and_eq_true] at h
    obtain ⟨h1, h2⟩ := h
    have h2' : cAt e len = '\x00' := eq_of_beq h2
    have hall : ∀ i, i < len → cAt e i = cAt file i := by
      intro i hi
      exact eq_of_beq
        (List.all_eq_true.mp h1 i (List.mem_range.mpr hi))
    have hle : e.length ≤ len := by
      by_contra hlt
      push_neg at hlt
      have hx : cAt e len = e[len] := cAt_lt hlt
      rw [h2'] at hx
      exact he (hx ▸ List.getElem_mem hlt)
    have hge : len ≤ e.length := by
      by_contra hlt
      push_neg at hlt
      have h3 : cAt e e.length = '\x00' := cAt_ge (le_refl _)
      have hfl : e.length < file.length := lt_of_lt_of_le hlt hlen
      have h4 : cAt file e.length = file[e.length] := cAt_lt hfl
      have h5 := hall e.length hlt
      rw [h3, h4] at h5
      exact hf (h5 ▸ List.getElem_mem hfl)
    have hlen' : e.length = len := le_antisymm hle hge
    refine ⟨hlen', ?_⟩
    apply List.ext_getElem
    · rw [hlen', List.length_take]
      exact (Nat.min_eq_left hlen).symm
    · intro i hi1 hi2
      have hi : i < len := hlen' ▸ hi1
      have hfl : i < file.length := lt_of_lt_of_le hi hlen
      have := hall i hi
      rw [cAt_lt hi1, cAt_lt hfl] at this
      rw [this]
      exact (List.getElem_take ..).symm
  · rintro ⟨h1, h2⟩
    rw [Bool.and_eq_true]
    constructor
    · apply List.all_eq_true.mpr
      intro i hmem
      have hi : i < len := List.mem_range.mp hmem
      have hie : i < e.length := by omega
      have hfl : i < file.length := lt_of_lt_of_le hi hlen
      apply beq_iff_eq.mpr
      rw [cAt_lt hie, cAt_lt hfl]
      subst h2
      exact List.getElem_take ..
    · rw [cAt_ge (by omega)]
      decide

/-- Unfolding of `gpath_search` at a present list. -/
theorem gpath_search_some (g : Vpath) (file : List Char) (len : Nat) :
    gpath_search (some g) file len
      = if decide (len ≤ g.maxlen) = true then
          g.searchpath.any (fun gp => strneq gp file len && (cAt gp len == '\x00'))
        else false := rfl

/-- C8: `gpath_search` returns true exactly when some exclusion entry is
byte-for-byte the first `len` bytes of the name and is itself exactly `len`
bytes long (entries sharing only a shorter or longer prefix never match),
and it returns false when no exclusion list was built. -/
theorem c8_exclusion_membership :
    (∀ (file : List Char) (len : Nat), gpath_search none file len = false)
    ∧ (∀ (g : Vpath) (file : List Char) (len : Nat),
        ¬ '\x00' ∈ file → len ≤ file.length →
        (∀ e ∈ g.searchpath, ¬ '\x00' ∈ e ∧ e.length ≤ g.maxlen) →
        (gpath_search (some g) file len = true
          ↔ ∃ e ∈ g.searchpath, e.length = len ∧ e = file.take len)) := by
  refine ⟨fun _ _ => rfl, ?_⟩
  intro g file len hf hlen hinv
  rw [gpath_search_some]
  by_cases hm : len ≤ g.maxlen
  · rw [decide_eq_true hm]
    simp only [if_true]
    rw [List.any_eq_true]
    constructor
    · rintro ⟨gp, hgp, hp⟩
      exact ⟨gp, hgp, (strneq_exact hf (hinv gp hgp).1 hlen).mp hp⟩
    · rintro ⟨gp, hgp, hp⟩
      exact ⟨gp, hgp, (strneq_exact hf (hinv gp hgp).1 hlen).mpr hp⟩
  · rw [decide_eq_false hm]
    simp only [Bool.false_eq_true, if_false]
    constructor
    · intro h
      exact absurd h (by simp)
    · rintro ⟨gp, hgp, hl, _⟩
      exact absurd (hl ▸ (hinv gp hgp).2) hm

/-- Witness for C8: the 10-byte name `/src/foo.c` against the exclusion
list holding a 10-, a 9- and an 11-byte entry sharing the prefix. -/
theorem c8_exclusion_membership_witness :
    (¬ '\x00' ∈ ("/src/foo.c".toList))
    ∧ (gpath_search (some gpEx) ("/src/foo.c".toList) 10 = true
        ↔ ∃ e ∈ gpEx.searchpath, e.length = 10
            ∧ e = ("/src/foo.c".toList).take 10)
    ∧ gpath_search (some gpEx) ("/src/foo.c".toList) 10 = true
    ∧ gpath_search (some (mkVpathPat ("%".toList)
          [("/src/foo.".toList), ("/src/foo.cc".toList)] false))
        ("/src/foo.c".toList) 10 = false :=
  ⟨by decide,
   c8_exclusion_membership.2 gpEx ("/src/foo.c".toList) 10
     (by decide) (by decide) (by decide),
   by decide, by decide⟩

/-! ## Claim C3: asymmetric target rule -/

/-- C3: when the target database holds an entry for the candidate and the
directory cache does not know the file, the scan iteration accepts the
candidate if and only if the searched filename is not itself a declared
target or the database entry is itself recorded as a target — in either
phase (`isTargetPath` is arbitrary and does not enter the rule). -/
theorem c3_asymmetric_rule (env : ScanEnv) (isTarget isTargetPath m : Bool)
    (acc filename : List Char) (f : FileEntry)
    (hdb : env.lookupFile (candName acc filename) = some f)
    (hcache : env.dirFileExistsP acc filename = false) :
    ((scanStep env isTarget isTargetPath m acc filename).isAccept = true
      ↔ (isTarget = false ∨ f.is_target = true)) := by
  cases hT : isTarget <;> cases hft : f.is_target <;>
    simp [scanStep, hdb, hcache, StepOut.isAccept, hft]

/-- Witness for C3: `foo.o` is a target, the database entry at `/vp/foo.o`
is not a target: the candidate is not accepted; flipping the filename's
target status (second application point shown as a plain evaluation) the
same entry is accepted. -/
theorem c3_asymmetric_rule_witness :
    envAsym.lookupFile (candName ("/vp".toList) ("foo.o".toList))
      = some ⟨false, FtStamp.unknownM⟩
    ∧ ((scanStep envAsym true false true ("/vp".toList) ("foo.o".toList)).isAccept
          = true
        ↔ (true = false ∨ (false : Bool) = true))
    ∧ (scanStep envAsym true false true ("/vp".toList) ("foo.o".toList)).isAccept
        = false
    ∧ (scanStep envAsym true true true ("/vp".toList) ("foo.o".toList)).isAccept
        = false
    ∧ (scanStep envAsym false false true ("/vp".toList) ("foo.o".toList)).isAccept
        = true :=
  ⟨by decide,
   c3_asymmetric_rule envAsym true false true ("/vp".toList) ("foo.o".toList)
     ⟨false, FtStamp.unknownM⟩ (by decide) (by decide),
   by decide, by decide, by decide⟩

/-! ## Claim C2: target-goal fallback -/

/-- When every remaining directory rejects (target-path scan) and a
fallback is already recorded, the loop returns the fallback with directory
index 0 and `UNKNOWN_MTIME` stored. -/
theorem scanLoop_allReject (env : ScanEnv) (isT m hasPfx : Bool)
    (pfx fname : List Char) :
    ∀ (entries : List (List Char)) (i : Nat) (t : List Char),
      (∀ e ∈ entries,
        scanStep env isT true m (candAcc e hasPfx pfx) fname = StepOut.reject) →
      scanLoop env isT true m hasPfx pfx fname entries i (some t)
        = (some (t, 0), if m then [FtStamp.unknownM] else [])
  | [], _, _, _ => by simp [scanLoop]
  | e :: rest, i, t, h => by
    have h0 := h e (by simp)
    have ih := scanLoop_allReject env isT m hasPfx pfx fname rest (i+1) t
      (fun x hx => h x (by simp [hx]))
    simp only [scanLoop, h0]
    simpa using ih

/-- C2: for a target-goal vpath whose scan finds no existing candidate in
any directory, the candidate built from the first directory entry is the
one returned after the loop exhausts, with directory index 0 and
`UNKNOWN_MTIME` stored through a non-null `mtime_ptr`. -/
theorem c2_target_goal_fallback (env : ScanEnv) (path : Vpath) (file : List Char)
    (m : Bool) (d0 : List Char) (rest : List (List Char))
    (hsp : path.searchpath = d0 :: rest) (hg : path.target_goal = true)
    (hfail : ∀ e ∈ path.searchpath,
      scanStep env (isTargetOf env file) true m
        (candAcc e (decide (0 < fsDplen file)) (fsPfx file)) (fsName file)
        = StepOut.reject) :
    selective_vpath_search env path file m
      = (some (candRet (candAcc d0 (decide (0 < fsDplen file)) (fsPfx file))
            (fsName file), 0),
         if m then [FtStamp.unknownM] else []) := by
  unfold selective_vpath_search
  rw [hg, hsp]
  rw [hsp] at hfail
  have h0 := hfail d0 (by simp)
  simp only [scanLoop, h0]
  have hrest := scanLoop_allReject env (isTargetOf env file) m
    (decide (0 < fsDplen file)) (fsPfx file) (fsName file) rest 1
    (candRet (candAcc d0 (decide (0 < fsDplen file)) (fsPfx file)) (fsName file))
    (fun x hx => hfail x (by simp [hx]))
  simpa using hrest

/-- Witness for C2: the scenario of the claim — target-goal list with
directories `/build`, `/alt`, pattern `%.o`, `foo.o` a declared target that
exists nowhere: the per-list scan returns `/build/foo.o` at index 0 with
`UNKNOWN_MTIME`, and the full resolver reports it from the target phase. -/
theorem c2_target_goal_fallback_witness :
    vpTgt.searchpath = ("/build".toList) :: [("/alt".toList)]
    ∧ selective_vpath_search envTgt vpTgt ("foo.o".toList) true
        = (some (("/build/foo.o".toList), 0), [FtStamp.unknownM])
    ∧ vpath_search ⟨[vpTgt], none⟩ envTgt ("foo.o".toList) true
        = (some ⟨("/build/foo.o".toList), true, 0, 0⟩, [FtStamp.unknownM]) := by
  refine ⟨rfl, ?_, by decide⟩
  have h := c2_target_goal_fallback envTgt vpTgt ("foo.o".toList) true
    ("/build".toList) [("/alt".toList)] rfl rfl (by decide)
  rw [h]
  decide

/-! ## Claim C10: no mtime store on failure -/

/-- Unfolding of `scanLoop` at an exhausted directory list. -/
theorem scanLoop_nil (env : ScanEnv) (a b m hp : Bool) (p f : List Char)
    (i : Nat) (tgt : Option (List Char)) :
    scanLoop env a b m hp p f [] i tgt
      = match tgt with
        | some t => (some (t, 0), if m then [FtStamp.unknownM] else [])
        | none => (none, []) := rfl

/-- Unfolding of `scanLoop` at a directory entry. -/
theorem scanLoop_cons (env : ScanEnv) (a b m hp : Bool) (p f e : List Char)
    (rest : List (List Char)) (i : Nat) (tgt : Option (List Char)) :
    scanLoop env a b m hp p f (e :: rest) i tgt
      = match scanStep env a b m (candAcc e hp p) f with
        | StepOut.accept w => (some (candRet (candAcc e hp p) f, i), w)
        | StepOut.rejectContinue => scanLoop env a b m hp p f rest (i+1) tgt
        | StepOut.reject =>
          scanLoop env a b m hp p f rest (i+1)
            (if b && tgt.isNone then some (candRet (candAcc e hp p) f) else tgt)
      := rfl

/-- A scan that returns "not found" performs no `mtime_ptr` store. -/
theorem scanLoop_none_writes (env : ScanEnv) (a b m hp : Bool) (p f : List Char) :
    ∀ (entries : List (List Char)) (i : Nat) (tgt : Option (List Char)),
      (scanLoop env a b m hp p f entries i tgt).1 = none →
      (scanLoop env a b m hp p f entries i tgt).2 = []
  | [], _, tgt, hn => by
    cases tgt with
    | some t => simp [scanLoop_nil] at hn
    | none => simp [scanLoop_nil]
  | e :: rest, i, tgt, hn => by
    rw [scanLoop_cons] at hn ⊢
    cases hs : scanStep env a b m (candAcc e hp p) f with
    | accept w => rw [hs] at hn; simp at hn
    | rejectContinue =>
      rw [hs] at hn
      exact scanLoop_none_writes env a b m hp p f rest (i+1) tgt hn
    | reject =>
      rw [hs] at hn
      exact scanLoop_none_writes env a b m hp p f rest (i+1) _ hn

/-- A failing `selective_vpath_search` performs no `mtime_ptr` store. -/
theorem selective_none_writes (env : ScanEnv) (path : Vpath) (file : List Char)
    (m : Bool) (hn : (selective_vpath_search env path file m).1 = none) :
    (selective_vpath_search env path file m).2 = [] :=
  scanLoop_none_writes env (isTargetOf env file) path.target_goal m
    (decide (0 < fsDplen file)) (fsPfx file) (fsName file) path.searchpath 0 none hn

/-- Unfolding of `searchPhase1` at a chain element. -/
theorem searchPhase1_cons (env : ScanEnv) (file : List Char) (m : Bool)
    (v : Vpath) (rest : List Vpath) (i : Nat) :
    searchPhase1 env file m (v :: rest) i
      = if vpath_match v file then
          match (selective_vpath_search env { v with target_goal := false } file m).1 with
          | some nmpi =>
            (some ⟨nmpi.1, v.target_goal, i, nmpi.2⟩,
             (selective_vpath_search env { v with target_goal := false } file m).2)
          | none =>
            ((searchPhase1 env file m rest (i+1)).1,
             (selective_vpath_search env { v with target_goal := false } file m).2
               ++ (searchPhase1 env file m rest (i+1)).2)
        else searchPhase1 env file m rest (i+1) := rfl

/-- Unfolding of `searchPhase2` at a chain element. -/
theorem searchPhase2_cons (env : ScanEnv) (file : List Char) (m : Bool)
    (v : Vpath) (rest : List Vpath) (i : Nat) :
    searchPhase2 env file m (v :: rest) i
      = if v.target_goal && vpath_match v file then
          match (selective_vpath_search env v file m).1 with
          | some nmpi =>
            (some ⟨nmpi.1, v.target_goal, i, nmpi.2⟩,
             (selective_vpath_search env v file m).2)
          | none =>
            ((searchPhase2 env file m rest (i+1)).1,
             (selective_vpath_search env v file m).2
               ++ (searchPhase2 env file m rest (i+1)).2)
        else searchPhase2 env file m rest (i+1) := rfl

/-- A failing phase-1 pass performs no `mtime_ptr` store. -/
theorem phase1_none_writes (env : ScanEnv) (file : List Char) (m : Bool) :
    ∀ (l : List Vpath) (i : Nat),
      (searchPhase1 env file m l i).1 = none →
      (searchPhase1 env file m l i).2 = []
  | [], _, _ => rfl
  | v :: rest, i, hn => by
    rw [searchPhase1_cons] at hn ⊢
    cases hm : vpath_match v file with
    | false =>
      rw [hm] at hn
      simp only [Bool.false_eq_true, if_false] at hn ⊢
      exact phase1_none_writes env file m rest (i+1) hn
    | true =>
      rw [hm] at hn
      simp only [if_true] at hn ⊢
      cases hsel : (selective_vpath_search env { v with target_goal := false } file m).1 with
      | some nmpi => rw [hsel] at hn; simp at hn
      | none =>
        rw [hsel] at hn
        exact List.append_eq_nil.mpr
          ⟨selective_none_writes env _ file m hsel,
           phase1_none_writes env file m rest (i+1) hn⟩

/-- A failing phase-2 pass performs no `mtime_ptr` store. -/
theorem phase2_none_writes (env : ScanEnv) (file : List Char) (m : Bool) :
    ∀ (l : List Vpath) (i : Nat),
      (searchPhase2 env file m l i).1 = none →
      (searchPhase2 env file m l i).2 = []
  | [], _, _ => rfl
  | v :: rest, i, hn => by
    rw [searchPhase2_cons] at hn ⊢
    cases hm : (v.target_goal && vpath_match v file) with
    | false =>
      rw [hm] at hn
      simp only [Bool.false_eq_true, if_false] at hn ⊢
      exact phase2_none_writes env file m rest (i+1) hn
    | true =>
      rw [hm] at hn
      simp only [if_true] at hn ⊢
      cases hsel : (selective_vpath_search env v file m).1 with
      | some nmpi => rw [hsel] at hn; simp at hn
      | none =>
        rw [hsel] at hn
        exact List.append_eq_nil.mpr
          ⟨selective_none_writes env v file m hsel,
           phase2_none_writes env file m rest (i+1) hn⟩

/-- Unfolding of `vpath_search` with the two passes and the general phase
written out. -/
theorem vpath_search_eq (st : VpathState) (env : ScanEnv) (file : List Char)
    (m : Bool) :
    vpath_search st env file m
      = if vpathGuard st file then (none, [])
        else
          match (searchPhase1 env file m st.vpaths 0).1 with
          | some h => (some h, (searchPhase1 env file m st.vpaths 0).2)
          | none =>
            match (searchPhase2 env file m st.vpaths 0).1 with
            | some h =>
              (some h, (searchPhase1 env file m st.vpaths 0).2
                ++ (searchPhase2 env file m st.vpaths 0).2)
            | none =>
              match st.general_vpath with
              | some g =>
                match (selective_vpath_search env g file m).1 with
                | some nmpi =>
                  (some ⟨nmpi.1, g.target_goal, 0, nmpi.2⟩,
                   (searchPhase1 env file m st.vpaths 0).2
                     ++ (searchPhase2 env file m st.vpaths 0).2
                     ++ (selective_vpath_search env g file m).2)
                | none =>
                  (none, (searchPhase1 env file m st.vpaths 0).2
                     ++ (searchPhase2 env file m st.vpaths 0).2
                     ++ (selective_vpath_search env g file m).2)
              | none =>
                (none, (searchPhase1 env file m st.vpaths 0).2
                   ++ (searchPhase2 env file m st.vpaths 0).2) := rfl

/-- C10: a call of `vpath_search` that returns "not found" never stores
through `mtime_ptr`: the write trace of a failing call is empty. -/
theorem c10_failure_frame (st : VpathState) (env : ScanEnv) (file : List Char)
    (m : Bool) (hn : (vpath_search st env file m).1 = none) :
    (vpath_search st env file m).2 = [] := by
  rw [vpath_search_eq] at hn ⊢
  cases hg : vpathGuard st file with
  | true => simp
  | false =>
    rw [hg] at hn
    simp only [Bool.false_eq_true, if_false] at hn ⊢
    cases h1 : (searchPhase1 env file m st.vpaths 0).1 with
    | some h => rw [h1] at hn; simp at hn
    | none =>
      rw [h1] at hn
      cases h2 : (searchPhase2 env file m st.vpaths 0).1 with
      | some h => rw [h2] at hn; simp at hn
      | none =>
        rw [h2] at hn
        cases hgen : st.general_vpath with
        | none =>
          exact List.append_eq_nil.mpr
            ⟨phase1_none_writes env file m st.vpaths 0 h1,
             phase2_none_writes env file m st.vpaths 0 h2⟩
        | some g =>
          rw [hgen] at hn
          cases hsel : (selective_vpath_search env g file m).1 with
          | some nmpi => simp [hsel] at hn
          | none =>
            simp only [hsel]
            exact List.append_eq_nil.mpr
              ⟨List.append_eq_nil.mpr
                 ⟨phase1_none_writes env file m st.vpaths 0 h1,
                  phase2_none_writes env file m st.vpaths 0 h2⟩,
               selective_none_writes env g file m hsel⟩

/-- Witness for C10: a failing search (no pattern matches `a.c`) with a
non-null `mtime_ptr` leaves the write trace empty. -/
theorem c10_failure_frame_witness :
    (vpath_search ⟨[vpLib], none⟩ envTgt ("a.c".toList) true).1 = none
    ∧ (vpath_search ⟨[vpLib], none⟩ envTgt ("a.c".toList) true).2 = [] :=
  ⟨by decide,
   c10_failure_frame ⟨[vpLib], none⟩ envTgt ("a.c".toList) true (by decide)⟩

/-! ## Claim C1: three-phase search order -/

/-- Phase 1 returns the first success of the per-vpath attempts, taken in
chain (declaration) order. -/
theorem searchPhase1_firstSome (env : ScanEnv) (file : List Char) (m : Bool) :
    ∀ (l : List Vpath) (i : Nat),
      (searchPhase1 env file m l i).1
        = ((l.enumFrom i).map (attempt1 env file m)).findSome? id
  | [], i => by simp [searchPhase1, List.enumFrom]
  | v :: rest, i => by
    have ih := searchPhase1_firstSome env file m rest (i+1)
    rw [searchPhase1_cons]
    simp only [List.enumFrom, List.map_cons, List.findSome?]
    cases hm : vpath_match v file with
    | false =>
      simp only [attempt1, hm, Bool.false_eq_true, if_false, id]
      exact ih
    | true =>
      simp only [attempt1, hm, if_true, id]
      cases hsel : (selective_vpath_search env { v with target_goal := false } file m).1 with
      | some nmpi => simp [hsel]
      | none => simp only [hsel]; exact ih
  termination_by l => l.length

/-- Phase 2 returns the first success of the target-goal attempts, taken in
chain (declaration) order. -/
theorem searchPhase2_firstSome (env : ScanEnv) (file : List Char) (m : Bool) :
    ∀ (l : List Vpath) (i : Nat),
      (searchPhase2 env file m l i).1
        = ((l.enumFrom i).map (attempt2 env file m)).findSome? id
  | [], i => by simp [searchPhase2, List.enumFrom]
  | v :: rest, i => by
    have ih := searchPhase2_firstSome env file m rest (i+1)
    rw [searchPhase2_cons]
    simp only [List.enumFrom, List.map_cons, List.findSome?]
    cases hm : (v.target_goal && vpath_match v file) with
    | false =>
      simp only [attempt2, hm, Bool.false_eq_true, if_false, id]
      exact ih
    | true =>
      simp only [attempt2, hm, if_true, id]
      cases hsel : (selective_vpath_search env v file m).1 with
      | some nmpi => simp [hsel]
      | none => simp only [hsel]; exact ih
  termination_by l => l.length

/-- C1: unless the guard fires, `vpath_search` returns exactly the first
success of: the phase-1 attempts over all selective vpaths in declaration
order with the target-goal flag forced off (each attempt still reporting
the vpath's true flag, which the search restores), then the phase-2
attempts over the vpaths whose true target-goal flag is set, again in
declaration order, and finally the general-list attempt. -/
theorem c1_three_phase_order (st : VpathState) (env : ScanEnv) (file : List Char)
    (m : Bool) (h : vpathGuard st file = false) :
    (vpath_search st env file m).1
      = (((st.vpaths.enumFrom 0).map (attempt1 env file m)).findSome? id).orElse
          (fun _ =>
            (((st.vpaths.enumFrom 0).map (attempt2 env file m)).findSome? id).orElse
              (fun _ => st.general_vpath.bind (attemptGeneral env file m))) := by
  rw [vpath_search_eq, h]
  simp only [Bool.false_eq_true, if_false]
  rw [← searchPhase1_firstSome env file m st.vpaths 0,
      ← searchPhase2_firstSome env file m st.vpaths 0]
  cases h1 : (searchPhase1 env file m st.vpaths 0).1 with
  | some hh => simp [Option.orElse]
  | none =>
    cases h2 : (searchPhase2 env file m st.vpaths 0).1 with
    | some hh => simp [Option.orElse]
    | none =>
      cases hgen : st.general_vpath with
      | none => simp [Option.orElse]
      | some g =>
        cases hsel : (selective_vpath_search env g file m).1 with
        | some nmpi => simp [Option.orElse, Option.bind, attemptGeneral, hsel]
        | none => simp [Option.orElse, Option.bind, attemptGeneral, hsel]

/-- Witness for C1: two selective vpaths for `%.o` (a target-goal one for
`/build` declared first, a plain one for `/lib`), `foo.o` present only in
`/lib`: the resolver finds it in phase 1 through the second vpath. -/
theorem c1_three_phase_order_witness :
    vpathGuard ⟨[vpBuild, vpLib], none⟩ ("foo.o".toList) = false
    ∧ (vpath_search ⟨[vpBuild, vpLib], none⟩ envOrd ("foo.o".toList) true).1
        = ((([vpBuild, vpLib].enumFrom 0).map
              (attempt1 envOrd ("foo.o".toList) true)).findSome? id).orElse
            (fun _ =>
              ((([vpBuild, vpLib].enumFrom 0).map
                  (attempt2 envOrd ("foo.o".toList) true)).findSome? id).orElse
                (fun _ => (none : Option Vpath).bind
                    (attemptGeneral envOrd ("foo.o".toList) true)))
    ∧ (vpath_search ⟨[vpBuild, vpLib], none⟩ envOrd ("foo.o".toList) true).1
        = some ⟨("/lib/foo.o".toList), false, 1, 0⟩ :=
  ⟨by decide,
   c1_three_phase_order ⟨[vpBuild, vpLib], none⟩ envOrd ("foo.o".toList) true
     (by decide),
   by decide⟩

/-! ## Claim C9: canonicalization round-trip -/

/-- C9 (counterexample): the native list `"x y";a\;c` (three directory
strings: `x y`, `a\`, `c` — the second ends in a backslash, as a Windows
directory may) canonicalizes to `x\ y a\ c`, where the backslash before
the separator now reads as an escaped space; converting back yields
`"x y";"a c"`, which denotes only two directory strings.  The round trip
does not preserve the set of directory strings. -/
theorem c9_counterexample :
    convert_vpath_from_windows32 (("\"x y\";a\\;c").toList) ';' = some (("x\\ y a\\ c").toList)
    ∧ convert_Path_to_windows32 (("x\\ y a\\ c").toList) ';' = some (("\"x y\";\"a c\"").toList)
    ∧ parseNative ';' (("\"x y\";\"a c\"").toList) ≠ parseNative ';' (("\"x y\";a\\;c").toList) :=
  ⟨by decide, by decide, by decide⟩

/-- Unfolding of `fromLoop` at the end of the input. -/
theorem fromLoop_nil (delim : Char) (df instring esc skip : Bool)
    (acc : List Char) :
    fromLoop delim df [] instring esc skip acc
      = (acc.dropWhile ISBLANK).reverse := rfl

/-- Unfolding of `fromLoop` at one character. -/
theorem fromLoop_cons (delim : Char) (df : Bool) (c : Char) (src : List Char)
    (instring esc skip : Bool) (acc : List Char) :
    fromLoop delim df (c :: src) instring esc skip acc
      = if skip && ISBLANK c then fromLoop delim df src instring esc true acc
        else if c == '"' then fromLoop delim df src (!instring) false false acc
        else if ISBLANK c && !esc && (instring || df) then
          fromLoop delim df src instring false false (' ' :: '\\' :: acc)
        else if c == delim && !instring then
          fromLoop delim df src instring false true (' ' :: acc.dropWhile ISBLANK)
        else
          fromLoop delim df src instring
            (if !instring && c == '\\' then !esc else false) false (c :: acc)
      := rfl

/-- Unfolding of `toLoop` at the end of the input. -/
theorem toLoop_nil (delim : Char) (pending enquote instring : Bool)
    (out seg : List Char) :
    toLoop delim [] pending enquote instring out seg
      = out ++ wrapIf enquote (if pending then seg ++ ['\\'] else seg) := rfl

/-- Unfolding of `toLoop` at one character. -/
theorem toLoop_cons (delim : Char) (c : Char) (src : List Char)
    (pending enquote instring : Bool) (out seg : List Char) :
    toLoop delim (c :: src) pending enquote instring out seg
      = if pending && ISBLANK c then
          toLoop delim src false true instring out (seg ++ [' '])
        else if !instring && c == '\\' then
          toLoop delim src true enquote instring out
            (if pending then seg ++ ['\\'] else seg)
        else if !instring && ISBLANK c then
          toLoop delim src false false instring
            (out ++ wrapIf enquote (if pending then seg ++ ['\\'] else seg)
              ++ [delim]) []
        else
          toLoop delim src false enquote (if c == '"' then !instring else instring)
            out ((if pending then seg ++ ['\\'] else seg) ++ [c]) := rfl

/-- `escEntry` distributes over append. -/
theorem escEntry_append (a b : List Char) :
    escEntry (a ++ b) = escEntry a ++ escEntry b := by
  induction a with
  | nil => rfl
  | cons c a' ih =>
    simp only [List.cons_append, escEntry, List.foldr_cons] at ih ⊢
    rw [ih]
    rw [List.append_assoc]

/-- Unfolding of `escEntry` at one character. -/
theorem escEntry_cons (c : Char) (e : List Char) :
    escEntry (c :: e) = (if c == ' ' then ['\\', ' '] else [c]) ++ escEntry e := rfl

/-- The four character exclusions packed in `goodChar`. -/
theorem goodChar_facts {c : Char} (h : goodChar c = true) :
    (c == '"') = false ∧ (c == '\\') = false ∧ (c == ';') = false
      ∧ (c == '\t') = false := by
  unfold goodChar at h
  rw [Bool.and_eq_true, Bool.and_eq_true, Bool.and_eq_true] at h
  obtain ⟨⟨⟨h1, h2⟩, h3⟩, h4⟩ := h
  rw [Bool.not_eq_true'] at h1 h2 h3 h4
  exact ⟨h1, h2, h3, h4⟩

/-- A character that is neither a space nor a tab is not blank. -/
theorem ISBLANK_false {c : Char} (h1 : (c == ' ') = false)
    (h2 : (c == '\t') = false) : ISBLANK c = false := by
  unfold ISBLANK
  rw [h1, h2]
  rfl

/-- Passing the characters of a well-formed entry through the `fromLoop`
machine (with the escape flag clear): each space is escaped (the entry is
inside quotes, or the input is Windows-delimited, whenever it has spaces)
and every other character is copied. -/
theorem fromLoop_entry (df : Bool) :
    ∀ (e rest acc : List Char) (q : Bool),
      (∀ c ∈ e, goodChar c = true) →
      (hasSpace e = true → (q || df) = true) →
      fromLoop ';' df (e ++ rest) q false false acc
        = fromLoop ';' df rest q false false ((escEntry e).reverse ++ acc)
  | [], rest, acc, q, _, _ => by simp [escEntry]
  | c :: e', rest, acc, q, hg, hs => by
    obtain ⟨hq1, hq2, hq3, hq4⟩ := goodChar_facts (hg c (by simp))
    have ihg : ∀ x ∈ e', goodChar x = true := fun x hx => hg x (by simp [hx])
    rw [List.cons_append, fromLoop_cons]
    by_cases hsp : c = ' '
    · subst hsp
      have hq : (q || df) = true := hs (by simp [hasSpace])
      have hbl : ISBLANK ' ' = true := by decide
      simp only [Bool.false_and, Bool.false_eq_true, if_false, hq1, hbl, hq,
        Bool.not_false, Bool.true_and, Bool.and_true, if_true]
      rw [fromLoop_entry df e' rest (' ' :: '\\' :: acc) q ihg (fun _ => hq)]
      rw [escEntry_cons]
      simp
    · have hc : (c == ' ') = false := by
        rw [beq_eq_false_iff_ne]
        exact hsp
      have hbl : ISBLANK c = false := ISBLANK_false hc hq4
      have ihs : hasSpace e' = true → (q || df) = true := by
        intro hx
        exact hs (by simp [hasSpace] at hx ⊢; exact Or.inr hx)
      simp only [Bool.false_and, Bool.false_eq_true, if_false, hq1, hq2, hq3,
        hbl, Bool.and_false, if_false]
      rw [fromLoop_entry df e' rest (c :: acc) q ihg ihs]
      rw [escEntry_cons, hc]
      simp
  termination_by e => e.length

/-- The four components packed in `goodEntry`. -/
theorem goodEntry_facts {e : List Char} (h : goodEntry e = true) :
    e ≠ [] ∧ (∀ c ∈ e, goodChar c = true)
      ∧ (e.headD ' ' == ' ') = false ∧ (e.getLastD ' ' == ' ') = false := by
  unfold goodEntry at h
  rw [Bool.and_eq_true, Bool.and_eq_true, Bool.and_eq_true] at h
  obtain ⟨⟨⟨h1, h2⟩, h3⟩, h4⟩ := h
  rw [Bool.not_eq_true'] at h1 h3 h4
  refine ⟨?_, ?_, h3, h4⟩
  · intro hc
    subst hc
    simp at h1
  · intro c hc
    exact List.all_eq_true.mp h2 c hc

/-- The canonical form of a well-formed entry ends (reversed: starts) with
the entry's non-blank last character. -/
theorem escEntry_last {e : List Char} (h : goodEntry e = true) :
    ∃ c t, (escEntry e).reverse = c :: t ∧ ISBLANK c = false := by
  obtain ⟨hne, hgood, _, hlast⟩ := goodEntry_facts h
  have hlast' : (e.getLast hne == ' ') = false := by
    rw [List.getLastD_eq_getLast?, List.getLast?_eq_getLast e hne] at hlast
    exact hlast
  obtain ⟨_, _, _, ht⟩ := goodChar_facts (hgood _ (List.getLast_mem hne))
  refine ⟨e.getLast hne, (escEntry e.dropLast).reverse, ?_,
    ISBLANK_false hlast' ht⟩
  conv_lhs => rw [← List.dropLast_append_getLast hne]
  rw [escEntry_append, List.reverse_append, escEntry_cons, hlast']
  simp [escEntry]

/-- The canonical form of a well-formed entry starts with the entry's
non-blank first character. -/
theorem escEntry_head {e : List Char} (h : goodEntry e = true) :
    ∃ c t, escEntry e = c :: t ∧ ISBLANK c = false := by
  obtain ⟨hne, hgood, hhead, _⟩ := goodEntry_facts h
  match e, hne with
  | c0 :: e'', _ =>
    have hc0 : (c0 == ' ') = false := hhead
    obtain ⟨_, _, _, ht⟩ := goodChar_facts (hgood c0 (by simp))
    refine ⟨c0, escEntry e'', ?_, ISBLANK_false hc0 ht⟩
    rw [escEntry_cons, hc0]
    rfl

/-- A well-formed entry renders with a non-blank first character. -/
theorem renderEntry_head {e : List Char} (h : goodEntry e = true) :
    ∃ c t, renderEntry e = c :: t ∧ ISBLANK c = false := by
  obtain ⟨hne, hgood, hhead, _⟩ := goodEntry_facts h
  unfold renderEntry wrapIf
  cases hsp : hasSpace e with
  | true => exact ⟨'"', e ++ ['"'], by simp, by decide⟩
  | false =>
    match e, hne with
    | c0 :: e'', _ =>
      obtain ⟨_, _, _, ht⟩ := goodChar_facts (hgood c0 (by simp))
      exact ⟨c0, e'', by simp, ISBLANK_false hhead ht⟩

/-- A rendered well-formed list starts with a non-blank character. -/
theorem renderNative_head :
    ∀ (es : List (List Char)), es ≠ [] → (∀ e ∈ es, goodEntry e = true) →
      ∃ c t, renderNative es = c :: t ∧ ISBLANK c = false
  | [], h, _ => absurd rfl h
  | [e], _, hg => by
    obtain ⟨c, t, hct, hcb⟩ := renderEntry_head (hg e (by simp))
    exact ⟨c, t, by rw [show renderNative [e] = renderEntry e from rfl, hct], hcb⟩
  | e :: e2 :: es'', _, hg => by
    obtain ⟨c, t, hct, hcb⟩ := renderEntry_head (hg e (by simp))
    refine ⟨c, t ++ ';' :: renderNative (e2 :: es''), ?_, hcb⟩
    rw [show renderNative (e :: e2 :: es'')
          = renderEntry e ++ ';' :: renderNative (e2 :: es'') from rfl, hct]
    rfl

/-- The canonical rendering of a well-formed list starts with a non-blank
character. -/
theorem canonRender_head :
    ∀ (es : List (List Char)), es ≠ [] → (∀ e ∈ es, goodEntry e = true) →
      ∃ c t, canonRender es = c :: t ∧ ISBLANK c = false
  | [], h, _ => absurd rfl h
  | [e], _, hg => by
    obtain ⟨c, t, hct, hcb⟩ := escEntry_head (hg e (by simp))
    exact ⟨c, t, by rw [show canonRender [e] = escEntry e from rfl, hct], hcb⟩
  | e :: e2 :: es'', _, hg => by
    obtain ⟨c, t, hct, hcb⟩ := escEntry_head (hg e (by simp))
    refine ⟨c, t ++ ' ' :: canonRender (e2 :: es''), ?_, hcb⟩
    rw [show canonRender (e :: e2 :: es'')
          = escEntry e ++ ' ' :: canonRender (e2 :: es'') from rfl, hct]
    rfl

/-- `dropWhile ISBLANK` keeps a list whose head is not blank. -/
theorem dropWhile_nonblank {c : Char} {t : List Char} (h : ISBLANK c = false) :
    (c :: t).dropWhile ISBLANK = c :: t := by
  rw [List.dropWhile_cons]
  simp [h]

/-- After a delimiter, the blank-skipping state is invisible as soon as a
non-blank character arrives. -/
theorem fromLoop_skip (delim : Char) (df : Bool) (c : Char) (src : List Char)
    (q esc : Bool) (acc : List Char) (h : ISBLANK c = false) :
    fromLoop delim df (c :: src) q esc true acc
      = fromLoop delim df (c :: src) q esc false acc := by
  rw [fromLoop_cons, fromLoop_cons, h]
  simp

/-- One rendered entry passes through `fromLoop` as its canonical form:
quotes are removed, embedded spaces escaped, plain entries copied. -/
theorem fromLoop_renderEntry (df : Bool) (e rest acc : List Char)
    (h : goodEntry e = true) :
    fromLoop ';' df (renderEntry e ++ rest) false false false acc
      = fromLoop ';' df rest false false false ((escEntry e).reverse ++ acc) := by
  obtain ⟨hne, hgood, _, _⟩ := goodEntry_facts h
  unfold renderEntry wrapIf
  cases hsp : hasSpace e with
  | true =>
    simp only [if_true]
    rw [List.cons_append, List.cons_append, fromLoop_cons]
    have hq : (('"' : Char) == '"') = true := by decide
    simp only [Bool.false_and, Bool.false_eq_true, if_false, hq, if_true,
      Bool.not_false]
    rw [List.append_assoc, List.cons_append, List.nil_append]
    rw [fromLoop_entry df e ('"' :: rest) acc true hgood (fun _ => rfl)]
    rw [fromLoop_cons]
    simp
  | false =>
    simp only [Bool.false_eq_true, if_false]
    exact fromLoop_entry df e rest acc false hgood
      (fun hx => absurd (hsp.symm.trans hx) (by decide))

/-- `convert_vpath_from_windows32`'s loop turns a rendered well-formed list
into its canonical form (for either value of the delimiter-found flag). -/
theorem fromLoop_render (df : Bool) :
    ∀ (es : List (List Char)) (acc : List Char),
      es ≠ [] → (∀ e ∈ es, goodEntry e = true) →
      fromLoop ';' df (renderNative es) false false false acc
        = acc.reverse ++ canonRender es
  | [], _, h, _ => absurd rfl h
  | [e], acc, _, hg => by
    have he := hg e (by simp)
    rw [show renderNative [e] = renderEntry e from rfl,
        ← List.append_nil (renderEntry e)]
    rw [fromLoop_renderEntry df e [] acc he, fromLoop_nil]
    obtain ⟨c, t, hct, hcb⟩ := escEntry_last he
    have hesc : escEntry e = t.reverse ++ [c] := by
      rw [← List.reverse_reverse (escEntry e), hct, List.reverse_cons]
    rw [hct, List.cons_append, dropWhile_nonblank hcb,
        show canonRender [e] = escEntry e from rfl, hesc]
    simp
  | e :: e2 :: es'', acc, _, hg => by
    have he := hg e (by simp)
    have hg' : ∀ x ∈ e2 :: es'', goodEntry x = true := fun x hx => hg x (by simp [hx])
    rw [show renderNative (e :: e2 :: es'')
          = renderEntry e ++ ';' :: renderNative (e2 :: es'') from rfl]
    rw [fromLoop_renderEntry df e _ acc he, fromLoop_cons]
    have hd : ((';' : Char) == '"') = false := by decide
    have hb : ISBLANK ';' = false := by decide
    have hdd : ((';' : Char) == ';') = true := by decide
    simp only [Bool.false_and, Bool.false_eq_true, if_false, hd, hb, hdd,
      Bool.not_false, Bool.and_true, Bool.true_and, Bool.false_or, if_true]
    obtain ⟨c, t, hct, hcb⟩ := escEntry_last he
    have hesc : escEntry e = t.reverse ++ [c] := by
      rw [← List.reverse_reverse (escEntry e), hct, List.reverse_cons]
    rw [hct, List.cons_append, dropWhile_nonblank hcb]
    obtain ⟨c2, t2, hct2, hcb2⟩ := renderNative_head (e2 :: es'') (by simp) hg'
    rw [hct2, fromLoop_skip ';' df c2 t2 false false _ hcb2, ← hct2]
    rw [fromLoop_render df (e2 :: es'') (' ' :: c :: (t ++ acc)) (by simp) hg']
    rw [show canonRender (e :: e2 :: es'')
          = escEntry e ++ ' ' :: canonRender (e2 :: es'') from rfl, hesc]
    simp

/-- The canonical characters of a well-formed entry pass through `toLoop`
as the entry itself: escaped spaces become plain spaces (flagging the
segment for quoting), other characters are copied. -/
theorem toLoop_escEntry :
    ∀ (e : List Char) (rest : List Char) (enq : Bool) (out seg : List Char),
      (∀ c ∈ e, goodChar c = true) →
      toLoop ';' (escEntry e ++ rest) false enq false out seg
        = toLoop ';' rest false (enq || hasSpace e) false out (seg ++ e)
  | [], rest, enq, out, seg, _ => by simp [escEntry, hasSpace]
  | c :: e', rest, enq, out, seg, hg => by
    obtain ⟨hq1, hq2, hq3, hq4⟩ := goodChar_facts (hg c (by simp))
    have ihg : ∀ x ∈ e', goodChar x = true := fun x hx => hg x (by simp [hx])
    rw [escEntry_cons]
    cases hsp : (c == ' ') with
    | true =>
      have hc : c = ' ' := eq_of_beq hsp
      subst hc
      simp only [if_true, List.cons_append, List.nil_append, List.append_assoc]
      rw [toLoop_cons]
      have h1 : ((('\\' : Char)) == '\\') = true := by decide
      have h2 : ISBLANK '\\' = false := by decide
      simp only [Bool.false_and, Bool.false_eq_true, if_false, h1, h2,
        Bool.not_false, Bool.true_and, if_true]
      rw [toLoop_cons]
      have h3 : ISBLANK ' ' = true := by decide
      simp only [h3, Bool.true_and, Bool.and_true, if_true]
      rw [toLoop_escEntry e' rest true out (seg ++ [' ']) ihg]
      rw [show hasSpace (' ' :: e') = true by simp [hasSpace]]
      simp [List.append_assoc]
    | false =>
      simp only [hsp, Bool.false_eq_true, if_false, List.cons_append,
        List.nil_append, List.append_assoc]
      rw [toLoop_cons]
      have hbl : ISBLANK c = false := ISBLANK_false hsp hq4
      simp only [Bool.false_and, Bool.false_eq_true, if_false, hq1, hq2, hbl,
        Bool.and_false, Bool.not_false, Bool.true_and, if_false]
      rw [toLoop_escEntry e' rest enq out (seg ++ [c]) ihg]
      rw [show hasSpace (c :: e') = hasSpace e' by simp [hasSpace, hsp]]
      simp [List.append_assoc]
  termination_by e => e.length

/-- `convert_Path_to_windows32`'s loop turns the canonical form of a
well-formed list back into the rendered native list. -/
theorem toLoop_canon :
    ∀ (es : List (List Char)) (out : List Char),
      es ≠ [] → (∀ e ∈ es, goodEntry e = true) →
      toLoop ';' (canonRender es) false false false out []
        = out ++ renderNative es
  | [], _, h, _ => absurd rfl h
  | [e], out, _, hg => by
    have he := hg e (by simp)
    obtain ⟨_, hgood, _, _⟩ := goodEntry_facts he
    rw [show canonRender [e] = escEntry e from rfl,
        ← List.append_nil (escEntry e)]
    rw [toLoop_escEntry e [] false out [] hgood, toLoop_nil]
    rfl
  | e :: e2 :: es'', out, _, hg => by
    have he := hg e (by simp)
    obtain ⟨_, hgood, _, _⟩ := goodEntry_facts he
    have hg' : ∀ x ∈ e2 :: es'', goodEntry x = true := fun x hx => hg x (by simp [hx])
    rw [show canonRender (e :: e2 :: es'')
          = escEntry e ++ ' ' :: canonRender (e2 :: es'') from rfl]
    rw [toLoop_escEntry e _ false out [] hgood, toLoop_cons]
    have h3 : ISBLANK ' ' = true := by decide
    have h4 : ((' ' : Char) == '\\') = false := by decide
    simp only [Bool.false_and, Bool.false_eq_true, if_false, h3, h4,
      Bool.and_false, Bool.not_false, Bool.true_and, if_true]
    rw [toLoop_canon (e2 :: es'') _ (by simp) hg']
    rw [show renderNative (e :: e2 :: es'')
          = renderEntry e ++ ';' :: renderNative (e2 :: es'') from rfl]
    simp only [List.nil_append, Bool.false_or]
    rw [show wrapIf (hasSpace e) e = renderEntry e from rfl]
    simp

/-- Unfolding of `convert_vpath_from_windows32`. -/
theorem convert_from_eq (Path : List Char) (delim : Char) :
    convert_vpath_from_windows32 Path delim
      = if (Path.dropWhile ISBLANK).isEmpty then none
        else some (fromLoop delim (delimFound delim (Path.dropWhile ISBLANK))
          (Path.dropWhile ISBLANK) false false false []) := rfl

/-- Unfolding of `convert_Path_to_windows32`. -/
theorem convert_to_eq (Path : List Char) (delim : Char) :
    convert_Path_to_windows32 Path delim
      = if (Path.dropWhile ISBLANK).isEmpty then none
        else some (toLoop delim (Path.dropWhile ISBLANK) false false false [] []) := rfl

/-- C9 (amended): for every non-empty list of well-formed directory entries
(non-empty, free of double quotes, backslashes, the delimiter `';'` and
tabs, without leading or trailing blanks — embedded spaces allowed), the
canonicalization converts the rendered native list exactly to its canonical
escaped-space form, and the inverse conversion returns exactly the original
rendered native list: the round trip is the identity on such lists, so the
denoted directory strings and their order are preserved. -/
theorem c9_roundtrip_amended (es : List (List Char))
    (h1 : es ≠ []) (h2 : ∀ e ∈ es, goodEntry e = true) :
    convert_vpath_from_windows32 (renderNative es) ';' = some (canonRender es)
    ∧ convert_Path_to_windows32 (canonRender es) ';' = some (renderNative es) := by
  obtain ⟨cr, tr, hcr, hbr⟩ := renderNative_head es h1 h2
  obtain ⟨cc, tc, hcc, hbc⟩ := canonRender_head es h1 h2
  constructor
  · rw [convert_from_eq, hcr, dropWhile_nonblank hbr]
    simp only [List.isEmpty_cons, Bool.false_eq_true, if_false]
    rw [← hcr, fromLoop_render _ es [] h1 h2]
    rfl
  · rw [convert_to_eq, hcc, dropWhile_nonblank hbc]
    simp only [List.isEmpty_cons, Bool.false_eq_true, if_false]
    rw [← hcc, toLoop_canon es [] h1 h2]
    rfl

/-- Witness for C9's amended round trip at the list `["my dir", "lib"]`
(rendered `"my dir";lib`, canonical `my\ dir lib`). -/
theorem c9_roundtrip_amended_witness :
    (∀ e ∈ [("my dir".toList), ("lib".toList)], goodEntry e = true)
    ∧ convert_vpath_from_windows32
        (renderNative [("my dir".toList), ("lib".toList)]) ';'
        = some (canonRender [("my dir".toList), ("lib".toList)])
    ∧ convert_Path_to_windows32
        (canonRender [("my dir".toList), ("lib".toList)]) ';'
        = some (renderNative [("my dir".toList), ("lib".toList)])
    ∧ renderNative [("my dir".toList), ("lib".toList)] = ("\"my dir\";lib".toList)
    ∧ canonRender [("my dir".toList), ("lib".toList)] = ("my\\ dir lib".toList) := by
  have h := c9_roundtrip_amended [("my dir".toList), ("lib".toList)]
    (by decide) (by decide)
  exact ⟨by decide, h.1, h.2, by decide, by decide⟩
